import Mathlib

/-!
Verification of the status-generator report pipeline.

This file gives a shallow embedding, in Lean 4, of the pure data-flow of the
repository: the issue table and identifier dictionary built at the top of
generate_report (src/app.py, src/jira_core.py), the hierarchy builder
build_hierarchical_text, the persona digests, the metrics computations, the
reporting-period arithmetic get_next_period_dates, the LLM summarizer
get_llm_summary / call_groq_llm (src/llm_integrations.py) with its network
effects abstracted as an explicit outcome value, and the judge regeneration
loop (modelled from the specification, since only its configuration
AI_JUDGE_CONFIG lives in the sources).

External effects (HTTP calls, the Jira client, Streamlit) are represented by
explicit oracle parameters; machine dates are represented by proleptic
Gregorian ordinals exactly as in the Python datetime module (day 1 is
0001-01-01, the last representable day is 9999-12-31, and arithmetic leaving
that range raises OverflowError, modelled as a none result).
-/

namespace StatusGen

/-- One row of the issue table built by generate_report (src/app.py:404-426):
the per-issue record extracted from a raw Jira issue, with the exact defaulting
of that code ("N/A" summary, empty description, "N/A" status, "Unassigned"
assignee, "N/A" priority, optional dates, optional parent, subtask key list).
The extraction itself is pure defaulting, so rows are taken as inputs here. -/
structure IssueRow where
  key : String
  summary : String
  description : String
  status : String
  assignee : String
  priority : String
  dueDate : Option String
  created : Option String
  updated : Option String
  resolved : Option String
  parent : Option String
  subtasks : List String
deriving DecidableEq

/-- Python dict assignment issues_dict[key] = row: overwrite the value in
place when the key is present (Python keeps the first-insertion position),
append a fresh binding otherwise. -/
def insertOverwrite (d : List (String × IssueRow)) (k : String) (v : IssueRow) :
    List (String × IssueRow) :=
  if d.any (fun p => p.1 == k) then
    d.map (fun p => if p.1 == k then (k, v) else p)
  else
    d ++ [(k, v)]

/-- The issues_dict built by the loop in generate_report (src/app.py:405-426):
one dict assignment per raw issue, in input order. -/
def buildIssuesDict (issues : List IssueRow) : List (String × IssueRow) :=
  issues.foldl (fun d i => insertOverwrite d i.key i) []

/-- Reading issues_dict[k]: the binding for k, if any. -/
def dictLookup (d : List (String × IssueRow)) (k : String) : Option IssueRow :=
  (d.find? (fun p => p.1 == k)).map (fun p => p.2)

/-- The data list feeding pd.DataFrame (src/app.py:405,426): one row is
appended per raw issue, so the table length is the raw issue count.
len(df), the Total Issues metric of the report (src/app.py:550). -/
def total_issues (issues : List IssueRow) : Nat :=
  issues.length

/-- achieved_df of generate_report (src/app.py:429): the rows whose Status is
exactly "Done". -/
def achievedRows (issues : List IssueRow) : List IssueRow :=
  issues.filter (fun i => i.status == "Done")

/-- achieved_keys of generate_report (src/app.py:430). -/
def achievedKeys (issues : List IssueRow) : List String :=
  (achievedRows issues).map (fun i => i.key)

/-- Reading issues_dict[k]["Summary"] inside generate_report. The none branch
corresponds to a Python KeyError; it is unreachable for keys drawn from the
dictionary itself (every achieved key is a key of the table). -/
def summaryOfKey (issues : List IssueRow) (k : String) : String :=
  match dictLookup (buildIssuesDict issues) k with
  | some r => r.summary
  | none => ""

/-- The manager persona digest of generate_report (src/app.py:477-481):
completed_summaries = [issues_dict[k]["Summary"] for k in achieved_keys[:10]],
then "Completed {N} tickets this period. Key accomplishments include: " joined
with the first five summaries, closed by ", and {N-5} other items" when more
than five tickets were completed and by "." otherwise. -/
def managerDigest (issues : List IssueRow) : String :=
  let ak := achievedKeys issues
  let completed_summaries := (ak.take 10).map (summaryOfKey issues)
  "Completed " ++ toString ak.length ++
    " tickets this period. Key accomplishments include: " ++
    String.intercalate ", " (completed_summaries.take 5) ++
    (if 5 < ak.length then
      ", and " ++ toString (ak.length - 5) ++ " other items"
    else ".")

/-- Rounding of a rational to the nearest integer, ties to even: the rounding
applied by the Python format specifier ":.0f" (and by the builtin round) in
the metrics line of generate_report. The Python code evaluates the quotient in
binary floating point; this model uses the exact rational value, under which
the format expression and the round expression of the specification coincide
identically, as they do in Python (both apply round-half-even to the very same
value). -/
def roundHalfEvenQ (q : ℚ) : ℤ :=
  let f : ℤ := ⌊q⌋
  let r : ℚ := q - (f : ℚ)
  if r < 1 / 2 then f
  else if 1 / 2 < r then f + 1
  else if f % 2 = 0 then f else f + 1

/-- len(achieved_df): the Completed metric of generate_report. -/
def completed_count (issues : List IssueRow) : Nat :=
  (achievedRows issues).length

/-- The completion percentage printed in the metrics line of generate_report
(src/app.py:550): len(achieved_df)/len(df)*100 rendered with ":.0f". -/
def completion_pct (issues : List IssueRow) : ℤ :=
  roundHalfEvenQ ((completed_count issues : ℚ) / (total_issues issues : ℚ) * 100)

/-- overdue_count of generate_report (src/app.py:536): rows that have a due
date set and whose status is not "Done". No comparison with the current date
is performed. -/
def overdue_count (issues : List IssueRow) : Nat :=
  (issues.filter (fun i => i.dueDate.isSome && !(i.status == "Done"))).length

/-- The metrics section of the report (src/app.py:549-551). -/
def metrics_section (issues : List IssueRow) : String :=
  "**3. METRICS**\n" ++
    "Total Issues: " ++ toString (total_issues issues) ++
    " | Completed: " ++ toString (completed_count issues) ++
    " (" ++ toString (completion_pct issues) ++ "%)\n" ++
    "Overdue: " ++ toString (overdue_count issues)

/-- The guard at the top of generate_report (src/app.py:401-402): with no
issues the function returns the "no issues" report immediately, before any
metric (in particular before any division by the issue count) is computed.
A some result is the returned report text; none means the guard did not fire
and generation continues. -/
def generate_report_empty_check (issues : List IssueRow)
    (initiative_name : String) : Option String :=
  if issues.isEmpty then
    some ("❌ No issues found for " ++ initiative_name ++ ".")
  else none

/-- The body of one call of build_hierarchical_text (src/app.py:465-472 and
src/jira_core.py:249-256): iterate over the root keys, emit one line
"<indent><key>: <summary>" per key, and recurse into the subtask keys with the
indentation grown by two spaces. A missing key behaves as an empty row
(summary "N/A", no subtasks), exactly as issues_dict.get(key, \x7b\x7d). The
recur argument stands for the nested recursive call. -/
def build_hierarchical_text_body
    (recur : List String → String → Option String)
    (issues_dict : List (String × IssueRow)) :
    List String → String → Option String
  | [], _ => some ""
  | key :: rest, indent =>
    let row := dictLookup issues_dict key
    let summary := (row.map (fun r => r.summary)).getD "N/A"
    let subtasks := (row.map (fun r => r.subtasks)).getD []
    match recur subtasks (indent ++ "  ") with
    | none => none
    | some subText =>
      match build_hierarchical_text_body recur issues_dict rest indent with
      | none => none
      | some restText =>
        some (indent ++ key ++ ": " ++ summary ++ "\n" ++ subText ++ restText)

/-- build_hierarchical_text (src/app.py:465-472, src/jira_core.py:249-256)
with an explicit recursion-depth budget: the Python function has no depth
control of its own, and every nested call consumes one level of the
interpreter recursion limit. A none result means the budget is exhausted at
some nested call, which is what happens, for every finite limit, when the
traversal revisits nodes forever; Python raises RecursionError there. -/
def build_hierarchical_text (issues_dict : List (String × IssueRow)) :
    Nat → List String → String → Option String
  | 0, _, _ => none
  | fuel + 1, roots, indent =>
    build_hierarchical_text_body
      (build_hierarchical_text issues_dict fuel) issues_dict roots indent

/-- Outcome of one HTTP text-generation request, as observed by the callers in
src/llm_integrations.py: a parsed successful body, an HTTP 429 status, a
requests timeout exception, or any other raised exception. The payload of the
failure constructors is the str(e) text of the raised exception. -/
inductive LLMOutcome where
  | success (text : String)
  | status429 (msg : String)
  | timeoutEx (msg : String)
  | exception (msg : String)
deriving DecidableEq

/-- call_groq_llm (src/llm_integrations.py:40-74): returns the response text
paired with the rate-limited flag; a 429 status yields ("", true); a timeout
yields the fixed timeout text; any other exception yields the wrapped error
text. No failure escapes as an exception and no retry is performed. -/
def call_groq_llm (prompt model api_key : String) (outcome : LLMOutcome) :
    String × Bool :=
  match prompt, model, api_key, outcome with
  | _, _, _, LLMOutcome.success t => (t, false)
  | _, _, _, LLMOutcome.status429 _ => ("", true)
  | _, _, _, LLMOutcome.timeoutEx _ => ("⚠️ Request timeout. Try a different model.", false)
  | _, _, _, LLMOutcome.exception e => ("❌ Error: " ++ e, false)

/-- get_llm_summary (src/llm_integrations.py:77-127). The second component
counts the provider network calls made by the call (0 or 1; the function
never retries). The three non-Groq provider branches differ in the source
only by which HTTP client they invoke, which the outcome value abstracts;
any exception raised there is caught by the enclosing handler and wrapped as
"AI summary error: {e}". A provider string matching no branch (notably
"None") returns the empty string with no network call. -/
def get_llm_summary (llm_provider api_key prompt : String)
    (groq_model : Option String) (outcome : LLMOutcome) : String × Nat :=
  if llm_provider = "Groq (Free Tier)" then
    match groq_model with
    | none => ("❌ No Groq model selected", 0)
    | some m =>
      if m = "" then ("❌ No Groq model selected", 0)
      else
        let r := call_groq_llm prompt m api_key outcome
        if r.2 then
          ("⚠️ Rate limit hit for " ++ m ++
            ". Please select another model and regenerate.", 1)
        else (r.1, 1)
  else if llm_provider = "OpenAI" ∨ llm_provider = "xAI" ∨ llm_provider = "Gemini" then
    match outcome with
    | LLMOutcome.success t => (t, 1)
    | LLMOutcome.status429 e => ("AI summary error: " ++ e, 1)
    | LLMOutcome.timeoutEx e => ("AI summary error: " ++ e, 1)
    | LLMOutcome.exception e => ("AI summary error: " ++ e, 1)
  else ("", 0)

/-- The judge verdict statuses parsed from a validation response
(PASS / FAIL / INSUFFICIENT_DATA). -/
inductive JudgeStatus where
  | pass
  | fail
  | insufficientData
deriving DecidableEq

/-- max_regeneration_attempts of AI_JUDGE_CONFIG (src/config.py:895). -/
def max_regeneration_attempts : Nat := 2

/-- Modelled from the spec: the judge validation and regeneration state
machine of the specification (section 4.7). The loop implementation itself is
not among the sources; only its configuration AI_JUDGE_CONFIG and its prompts
are (src/config.py:884-1182). Per the spec: after generating at the current
attempt, validate; on FAIL with attempt < max_regeneration_attempts,
regenerate at attempt+1 and validate again; on PASS, on INSUFFICIENT_DATA, or
once attempt reaches the cap, stop. The budget argument is the number of
regenerations still allowed (max_regeneration_attempts - attempt); verdicts
gives the judge verdict observed at each attempt. The result is the attempt
ordinal at which the loop stops, which equals the number of extra generation
passes performed. -/
def regen_loop_aux (verdicts : Nat → JudgeStatus) : Nat → Nat → Nat
  | 0, attempt => attempt
  | budget + 1, attempt =>
    match verdicts attempt with
    | JudgeStatus.fail => regen_loop_aux verdicts budget (attempt + 1)
    | _ => attempt

/-- Modelled from the spec: the final attempt ordinal of a judge-enabled
report generation starting at attempt 0 (section 4.7; RegenerationAttempt
lifecycle of section 3). -/
def regen_final_attempt (verdicts : Nat → JudgeStatus) : Nat :=
  regen_loop_aux verdicts max_regeneration_attempts 0

/-! Reporting-period arithmetic: the model of get_next_period_dates
(src/jira_core.py:157-175, src/app.py:154-172). Python str.split semantics are
modelled on character lists; Python datetime values are modelled by their
proleptic Gregorian ordinals (datetime.toordinal), which is faithful because
both branches of interest add whole-day timedeltas and format with
strftime("%Y-%m-%d"). -/

/-- Cons a character onto the first part of a split result. -/
def consHead (c : Char) : List (List Char) → List (List Char)
  | h :: t => (c :: h) :: t
  | [] => [[c]]

/-- Python current_period.split(" to "): split on every non-overlapping
occurrence of the four-character separator, scanning left to right. A result
with a single element means the separator does not occur (the Python code
guards with a containment test before splitting). -/
def splitOnTo : List Char → List (List Char)
  | [] => [[]]
  | c1 :: ([] : List Char) => [[c1]]
  | c1 :: c2 :: ([] : List Char) => [[c1, c2]]
  | c1 :: c2 :: c3 :: ([] : List Char) => [[c1, c2, c3]]
  | c1 :: c2 :: c3 :: c4 :: rest =>
    if c1 = ' ' ∧ c2 = 't' ∧ c3 = 'o' ∧ c4 = ' ' then [] :: splitOnTo rest
    else consHead c1 (splitOnTo (c2 :: c3 :: c4 :: rest))

/-- Split on the character "-"; used to model the %Y-%m-%d pattern, whose
three numeric groups match only digits, so a full-pattern match decomposes the
text at exactly its dash characters. -/
def splitOnDash : List Char → List (List Char)
  | [] => [[]]
  | c :: rest =>
    if c = '-' then [] :: splitOnDash rest
    else consHead c (splitOnDash rest)

/-- Numeric value of a list of decimal digit characters (int of the group). -/
def digitsVal (l : List Char) : Nat :=
  l.foldl (fun acc c => acc * 10 + (c.toNat - 48)) 0

/-- Gregorian leap-year rule, as in Python calendar arithmetic. -/
def isLeapYear (y : Nat) : Bool :=
  (y % 4 == 0 && y % 100 != 0) || y % 400 == 0

/-- Days in a month of a given year. -/
def daysInMonth (y m : Nat) : Nat :=
  if m = 2 then (if isLeapYear y then 29 else 28)
  else if m = 4 ∨ m = 6 ∨ m = 9 ∨ m = 11 then 30
  else 31

/-- Python datetime.strptime(s, "%Y-%m-%d") followed by the datetime
constructor checks, on a character list: the %Y group is exactly four digits,
the %m group is one or two digits valued 1..12, the %d group is one or two
digits valued 1..31 bounded by the month length, nothing else remains, and
the year is at least MINYEAR = 1. Note that strptime accepts months and days
without a leading zero (its %m group matches "1" as well as "01"). Digits are
taken as ASCII here, whereas the \d groups that CPython compiles for %Y and
%d also match any other Unicode decimal digit, which int() then converts: on
non-ASCII digit input the source parser accepts strings this parser rejects.
This parser therefore agrees with the source parser exactly on ASCII input
and is sound (never accepts more) on all input; theorems that need the
characterization to be exact restrict themselves to ASCII strings. -/
def parseYMD (l : List Char) : Option (Nat × Nat × Nat) :=
  match splitOnDash l with
  | [ys, ms, ds] =>
    if ys.all Char.isDigit ∧ ms.all Char.isDigit ∧ ds.all Char.isDigit
        ∧ ys.length = 4 ∧ 1 ≤ ms.length ∧ ms.length ≤ 2
        ∧ 1 ≤ ds.length ∧ ds.length ≤ 2 then
      let y := digitsVal ys
      let m := digitsVal ms
      let d := digitsVal ds
      if 1 ≤ y ∧ 1 ≤ m ∧ m ≤ 12 ∧ 1 ≤ d ∧ d ≤ daysInMonth y m then
        some (y, m, d)
      else none
    else none
  | _ => none

/-- Days before the given month within the year. -/
def daysBeforeMonth (y m : Nat) : Nat :=
  (List.range (m - 1)).foldl (fun acc i => acc + daysInMonth y (i + 1)) 0

/-- Python date(y, m, d).toordinal(): day 1 is 0001-01-01. -/
def toOrdinal (y m d : Nat) : Nat :=
  365 * (y - 1) + (y - 1) / 4 - (y - 1) / 100 + (y - 1) / 400
    + daysBeforeMonth y m + d

/-- date.max.toordinal(): the ordinal of 9999-12-31, the last day
representable by Python datetime; arithmetic beyond it raises OverflowError. -/
def maxOrdinal : Nat := toOrdinal 9999 12 31

/-- Month and day from a zero-based day index within a year. -/
def monthFromDay (y d0 : Nat) : Nat × Nat :=
  let step := fun (acc : Nat × Nat × Bool) (i : Nat) =>
    match acc with
    | (m, d, found) =>
      if found then (m, d, found)
      else
        let dim := daysInMonth y (i + 1)
        if d < dim then (i + 1, d, true) else (m, d - dim, found)
  match (List.range 12).foldl step (1, d0, false) with
  | (m, d, _) => (m, d + 1)

/-- Python date.fromordinal: inverse of toOrdinal on the supported range,
following the 400/100/4/1-year decomposition of the datetime module. -/
def fromOrdinal (ord : Nat) : Nat × Nat × Nat :=
  let n := ord - 1
  let n400 := n / 146097
  let r400 := n % 146097
  let n100 := r400 / 36524
  let r100 := r400 % 36524
  let n4 := r100 / 1461
  let r4 := r100 % 1461
  let n1 := r4 / 365
  let r1 := r4 % 365
  let year := n400 * 400 + n100 * 100 + n4 * 4 + n1 + 1
  if n1 = 4 ∨ n100 = 4 then (year - 1, 12, 31)
  else
    match monthFromDay year r1 with
    | (m, d) => (year, m, d)

/-- Left-pad a number below ten with a zero: strftime %m and %d. -/
def pad2 (n : Nat) : String :=
  if n < 10 then "0" ++ toString n else toString n

/-- strftime("%Y-%m-%d") of a (year, month, day) triple. The year is printed
unpadded (as glibc does); all theorems below only concern years of four
digits, where this agrees with every platform. -/
def fmtYMD : Nat × Nat × Nat → String
  | (y, m, d) => toString y ++ "-" ++ pad2 m ++ "-" ++ pad2 d

/-- strftime("%Y-%m-%d") of an ordinal. -/
def fmtOrdinal (n : Nat) : String :=
  fmtYMD (fromOrdinal n)

/-- get_next_period_dates (src/jira_core.py:157-175, identical copy in
src/app.py:154-172). nowOrd is the ordinal of datetime.now(). A none result
models the call raising: the ValueError("Invalid period") of the final else,
the ValueError of strptime on an unparseable date, the ValueError of unpacking
a split with more than two parts, or the OverflowError of stepping beyond the
datetime range. -/
def get_next_period_dates (nowOrd : Nat) (current_period : String) :
    Option String :=
  if current_period = "last_week" then
    if nowOrd + 7 ≤ maxOrdinal then
      some (fmtOrdinal nowOrd ++ " to " ++ fmtOrdinal (nowOrd + 7))
    else none
  else if current_period = "last_month" then
    if nowOrd + 30 ≤ maxOrdinal then
      some (fmtOrdinal nowOrd ++ " to " ++ fmtOrdinal (nowOrd + 30))
    else none
  else
    match splitOnTo current_period.data with
    | [startChars, endChars] =>
      match parseYMD startChars, parseYMD endChars with
      | some (y1, m1, d1), some (y2, m2, d2) =>
        let o1 := toOrdinal y1 m1 d1
        let o2 := toOrdinal y2 m2 d2
        let nextEnd : ℤ := (o2 : ℤ) + ((o2 : ℤ) - (o1 : ℤ))
        if 1 ≤ nextEnd ∧ nextEnd ≤ (maxOrdinal : ℤ) then
          some (fmtOrdinal o2 ++ " to " ++ fmtOrdinal nextEnd.toNat)
        else none
      | _, _ => none
    | _ => none

/-- A date in strict YYYY-MM-DD shape, on a character list: exactly ten
characters, four year digits, two month digits and two day digits separated
by dashes, naming a calendar-valid date with year at least 1. This is the
literal reading of the "valid YYYY-MM-DD dates" wording of the claims, for
comparison with what the code accepts. -/
def strictYMDChars : List Char → Bool
  | [a, b, c, d, e, f, g, h, i, j] =>
    a.isDigit && b.isDigit && c.isDigit && d.isDigit && (e == '-')
      && f.isDigit && g.isDigit && (h == '-') && i.isDigit && j.isDigit
      && (let y := digitsVal [a, b, c, d]
          let mo := digitsVal [f, g]
          let da := digitsVal [i, j]
          (1 ≤ y && 1 ≤ mo && mo ≤ 12) && (1 ≤ da && da ≤ daysInMonth y mo))
  | _ => false

/-- Strict YYYY-MM-DD shape on strings. -/
def strictYMD (s : String) : Bool :=
  strictYMDChars s.data

/-- The four-character separator " to " as a character list. -/
def sepTo : List Char := [' ', 't', 'o', ' ']

/-- An explicit period accepted by get_next_period_dates: two parts joined by
" to ", each a date the %Y-%m-%d parser accepts (four-digit year of at least
1, month and day optionally unpadded, calendar-valid), such that the mirrored
next window end, end + (end - start), stays within the datetime range
0001-01-01 .. 9999-12-31. -/
def validExplicitPeriod (p : String) : Prop :=
  ∃ d1 d2 : String, ∃ y1 m1 dd1 y2 m2 dd2 : Nat,
    p = d1 ++ " to " ++ d2 ∧
    parseYMD d1.data = some (y1, m1, dd1) ∧
    parseYMD d2.data = some (y2, m2, dd2) ∧
    1 ≤ (toOrdinal y2 m2 dd2 : ℤ) +
        ((toOrdinal y2 m2 dd2 : ℤ) - (toOrdinal y1 m1 dd1 : ℤ)) ∧
    (toOrdinal y2 m2 dd2 : ℤ) +
        ((toOrdinal y2 m2 dd2 : ℤ) - (toOrdinal y1 m1 dd1 : ℤ)) ≤ (maxOrdinal : ℤ)

/-- The string consists of ASCII characters only. On such input the date
parser above coincides with the source strptime parser, whose digit groups
would additionally match non-ASCII Unicode decimal digits. -/
def asciiOnly (p : String) : Prop :=
  ∀ c ∈ p.data, c.toNat ≤ 127

/-! Concrete fixtures used by the witnesses and counterexamples below. -/

/-- A row with the defaulting of the normalizer for the fields that do not
matter to the statements below. -/
def mkRow (key summary status : String) (parent : Option String)
    (subtasks : List String) (dueDate : Option String) : IssueRow :=
  { key := key, summary := summary, description := "", status := status,
    assignee := "Unassigned", priority := "N/A", dueDate := dueDate,
    created := none, updated := none, resolved := none, parent := parent,
    subtasks := subtasks }

/-- First node of a two-node subtask cycle. -/
def cyclicRowA : IssueRow :=
  mkRow "PROJ-1" "cyclic epic" "Done" none ["PROJ-2"] none

/-- Second node of a two-node subtask cycle: its subtask list points back at
the first node. -/
def cyclicRowB : IssueRow :=
  mkRow "PROJ-2" "cyclic subtask" "Done" (some "PROJ-1") ["PROJ-1"] none

/-- An issues_dict whose parent/subtask links contain a cycle reachable from
the root set ["PROJ-1"]: PROJ-1 lists PROJ-2 as a subtask and PROJ-2 lists
PROJ-1 back. -/
def cyclic_issues_dict : List (String × IssueRow) :=
  [("PROJ-1", cyclicRowA), ("PROJ-2", cyclicRowB)]

/-- Scenario fixture: three issues, two of them Done. -/
def scenarioIssues : List IssueRow :=
  [mkRow "AWS-1" "Migrate database" "Done" none ["AWS-2"] none,
   mkRow "AWS-2" "Set up replication" "Done" (some "AWS-1") [] none,
   mkRow "AWS-3" "Cut over traffic" "In Progress" none [] (some "2025-10-20")]

/-- Fixture with a duplicated identifier: two raw issues share the key "X-1". -/
def dupIssues : List IssueRow :=
  [mkRow "X-1" "first extraction" "Done" none [] none,
   mkRow "X-1" "second extraction" "In Progress" none [] (some "2025-11-01"),
   mkRow "X-2" "unrelated" "Done" none [] none]

/-! Helper lemmas. -/

section DictLemmas

theorem find?_map_of_pred_preserved {α : Type} (f : α → α) (q : α → Bool)
    (hq : ∀ a, q (f a) = q a) (hid : ∀ a, q a = true → f a = a) :
    ∀ l : List α, List.find? q (l.map f) = List.find? q l := by
  intro l
  induction l with
  | nil => rfl
  | cons a l ih =>
    by_cases ha : q a
    · simp [List.find?, hq, ha, hid a ha]
    · have ha' : q a = false := by simpa using ha
      simp [List.find?, hq, ha', ih]

theorem find?_map_replace_hit (k : String) (v : IssueRow) :
    ∀ d : List (String × IssueRow), d.any (fun p => p.1 == k) = true →
      List.find? (fun p => p.1 == k)
        (d.map (fun p => if p.1 == k then (k, v) else p)) = some (k, v) := by
  intro d
  induction d with
  | nil => intro h; simp at h
  | cons p d ih =>
    intro h
    by_cases hp : p.1 == k
    · simp [List.find?, hp]
    · have hp' : (p.1 == k) = false := by simpa using hp
      have h' : d.any (fun p => p.1 == k) = true := by
        simpa [hp'] using h
      rw [List.map_cons, if_neg (by simp [hp']),
        List.find?_cons_of_neg _ (by simp [hp'])]
      exact ih h'

theorem dictLookup_insertOverwrite_self (d : List (String × IssueRow))
    (k : String) (v : IssueRow) :
    dictLookup (insertOverwrite d k v) k = some v := by
  unfold insertOverwrite
  by_cases hany : d.any (fun p => p.1 == k)
  · rw [if_pos hany]
    unfold dictLookup
    rw [find?_map_replace_hit k v d hany]
    rfl
  · rw [if_neg hany]
    have hnone : d.find? (fun p => p.1 == k) = none := by
      rw [List.find?_eq_none]
      intro p hp hcontra
      exact hany (List.any_eq_true.mpr ⟨p, hp, hcontra⟩)
    unfold dictLookup
    rw [List.find?_append, hnone]
    simp [List.find?]

theorem dictLookup_insertOverwrite_other (d : List (String × IssueRow))
    (k k' : String) (v : IssueRow) (hne : k' ≠ k) :
    dictLookup (insertOverwrite d k v) k' = dictLookup d k' := by
  have hkk' : (k == k') = false := by
    simpa using fun h => hne h.symm
  unfold insertOverwrite
  by_cases hany : d.any (fun p => p.1 == k)
  · rw [if_pos hany]
    unfold dictLookup
    rw [find?_map_of_pred_preserved _ _ ?hq ?hid]
    case hq =>
      intro p
      by_cases hp : p.1 == k
      · have hpk : p.1 = k := by simpa using hp
        simp [hp, hpk, hkk']
      · simp [hp]
    case hid =>
      intro p hp'
      have hpk' : p.1 = k' := by simpa using hp'
      have : (p.1 == k) = false := by
        simp [hpk']
        exact hne
      simp [this]
  · rw [if_neg hany]
    unfold dictLookup
    rw [List.find?_append]
    have : List.find? (fun p => p.1 == k') [(k, v)] = none := by
      simp [List.find?, hkk']
    rw [this]
    cases d.find? (fun p => p.1 == k') <;> rfl

/-- The dictionary lookup returns the extraction of the last raw issue having
the requested identifier (later dict assignments overwrite earlier ones). -/
theorem dictLookup_buildIssuesDict (issues : List IssueRow) (k : String) :
    dictLookup (buildIssuesDict issues) k =
      (issues.filter (fun i => i.key == k)).getLast? := by
  induction issues using List.reverseRecOn with
  | nil => simp [buildIssuesDict, dictLookup]
  | append_singleton is i ih =>
    have hbuild : buildIssuesDict (is ++ [i]) =
        insertOverwrite (buildIssuesDict is) i.key i := by
      simp [buildIssuesDict, List.foldl_append]
    rw [hbuild]
    by_cases hk : k = i.key
    · subst hk
      rw [dictLookup_insertOverwrite_self]
      rw [List.filter_append]
      simp [List.getLast?_append]
    · rw [dictLookup_insertOverwrite_other _ _ _ _ hk]
      rw [List.filter_append]
      have : (i.key == k) = false := by simpa using fun h => hk h.symm
      simp [this, ih]

end DictLemmas

section NodupLemmas

theorem filter_key_eq_of_nodup (issues : List IssueRow)
    (h : (issues.map (fun i => i.key)).Nodup) (r : IssueRow) (hr : r ∈ issues) :
    issues.filter (fun i => i.key == r.key) = [r] := by
  induction issues with
  | nil => cases hr
  | cons a l ih =>
    rw [List.map_cons, List.nodup_cons] at h
    rcases List.mem_cons.mp hr with hra | hrl
    · subst hra
      rw [List.filter_cons_of_pos (by simp)]
      have : l.filter (fun i => i.key == r.key) = [] := by
        rw [List.filter_eq_nil_iff]
        intro i hi hcontra
        exact h.1 (List.mem_map.mpr ⟨i, hi, by simpa using hcontra⟩)
      rw [this]
    · have hne : (a.key == r.key) = false := by
        by_contra hc
        have : a.key = r.key := by simpa using hc
        exact h.1 (this ▸ List.mem_map.mpr ⟨r, hrl, rfl⟩)
      rw [List.filter_cons_of_neg (by simp [hne])]
      exact ih h.2 hrl

theorem dictLookup_of_nodup (issues : List IssueRow)
    (h : (issues.map (fun i => i.key)).Nodup) (r : IssueRow) (hr : r ∈ issues) :
    dictLookup (buildIssuesDict issues) r.key = some r := by
  rw [dictLookup_buildIssuesDict, filter_key_eq_of_nodup issues h r hr]
  rfl

end NodupLemmas

section SplitLemmas

theorem splitOnTo_ne_nil (l : List Char) : splitOnTo l ≠ [] := by
  match l with
  | [] => simp [splitOnTo]
  | [c1] => simp [splitOnTo]
  | [c1, c2] => simp [splitOnTo]
  | [c1, c2, c3] => simp [splitOnTo]
  | c1 :: c2 :: c3 :: c4 :: rest =>
    rw [splitOnTo]
    split
    · simp
    · unfold consHead
      split <;> simp

theorem splitOnDash_ne_nil (l : List Char) : splitOnDash l ≠ [] := by
  match l with
  | [] => simp [splitOnDash]
  | c :: rest =>
    rw [splitOnDash]
    split
    · simp
    · unfold consHead
      split <;> simp

theorem splitOnTo_cons_of_ne_space (c : Char) (l : List Char) (hc : c ≠ ' ') :
    splitOnTo (c :: l) = consHead c (splitOnTo l) := by
  match l with
  | [] => simp [splitOnTo, consHead]
  | [c2] => simp [splitOnTo, consHead]
  | [c2, c3] => simp [splitOnTo, consHead]
  | c2 :: c3 :: c4 :: rest =>
    rw [splitOnTo]
    rw [if_neg]
    rintro ⟨hceq, -⟩
    exact hc hceq

theorem splitOnTo_sep_append (b : List Char) :
    splitOnTo (sepTo ++ b) = [] :: splitOnTo b := by
  show splitOnTo (' ' :: 't' :: 'o' :: ' ' :: b) = [] :: splitOnTo b
  rw [splitOnTo, if_pos ⟨rfl, rfl, rfl, rfl⟩]

theorem splitOnTo_of_no_space (l : List Char) (h : ∀ c ∈ l, c ≠ ' ') :
    splitOnTo l = [l] := by
  induction l with
  | nil => rfl
  | cons c l ih =>
    rw [splitOnTo_cons_of_ne_space c l (h c (List.mem_cons_self c l))]
    rw [ih (fun x hx => h x (List.mem_cons_of_mem c hx))]
    rfl

theorem splitOnTo_append_sep (a b : List Char) (ha : ∀ c ∈ a, c ≠ ' ') :
    splitOnTo (a ++ sepTo ++ b) = a :: splitOnTo b := by
  induction a with
  | nil => simpa using splitOnTo_sep_append b
  | cons c a ih =>
    have : (c :: a) ++ sepTo ++ b = c :: (a ++ sepTo ++ b) := by simp
    rw [this, splitOnTo_cons_of_ne_space c _ (ha c (List.mem_cons_self c a))]
    rw [ih (fun x hx => ha x (List.mem_cons_of_mem c hx))]
    rfl

theorem splitOnTo_inv (n : Nat) : ∀ l : List Char, l.length ≤ n →
    (∀ x, splitOnTo l = [x] → l = x) ∧
    (∀ x y, splitOnTo l = [x, y] → l = x ++ sepTo ++ y) := by
  induction n with
  | zero =>
    intro l hl
    have : l = [] := List.length_eq_zero.mp (Nat.le_zero.mp hl)
    subst this
    constructor
    · intro x hx
      simp [splitOnTo] at hx
      first
      | exact hx
      | exact hx.symm
    · intro x y hxy
      simp [splitOnTo] at hxy
  | succ n ih =>
    intro l hl
    match l with
    | [] =>
      constructor
      · intro x hx
        simp [splitOnTo] at hx
        exact hx.symm
      · intro x y hxy
        simp [splitOnTo] at hxy
    | [c1] =>
      constructor
      · intro x hx
        simp [splitOnTo] at hx
        exact hx
      · intro x y hxy
        simp [splitOnTo] at hxy
    | [c1, c2] =>
      constructor
      · intro x hx
        simp [splitOnTo] at hx
        exact hx
      · intro x y hxy
        simp [splitOnTo] at hxy
    | [c1, c2, c3] =>
      constructor
      · intro x hx
        simp [splitOnTo] at hx
        exact hx
      · intro x y hxy
        simp [splitOnTo] at hxy
    | c1 :: c2 :: c3 :: c4 :: rest =>
      have hrest : rest.length ≤ n := by
        simp only [List.length_cons] at hl
        omega
      have htail : (c2 :: c3 :: c4 :: rest).length ≤ n := by
        simp only [List.length_cons] at hl ⊢
        omega
      by_cases hcond : c1 = ' ' ∧ c2 = 't' ∧ c3 = 'o' ∧ c4 = ' '
      · rw [show splitOnTo (c1 :: c2 :: c3 :: c4 :: rest) = [] :: splitOnTo rest by
          rw [splitOnTo, if_pos hcond]]
        constructor
        · intro x hx
          simp only [List.cons.injEq] at hx
          exact absurd hx.2 (splitOnTo_ne_nil rest)
        · intro x y hxy
          injection hxy with h1 h2
          have := (ih rest hrest).1 y h2
          obtain ⟨e1, e2, e3, e4⟩ := hcond
          subst e1; subst e2; subst e3; subst e4
          simp [sepTo, ← h1, ← this]
      · rw [show splitOnTo (c1 :: c2 :: c3 :: c4 :: rest) =
            consHead c1 (splitOnTo (c2 :: c3 :: c4 :: rest)) by
          rw [splitOnTo, if_neg hcond]]
        obtain ⟨h', t', hS⟩ : ∃ h' t', splitOnTo (c2 :: c3 :: c4 :: rest) = h' :: t' := by
          cases hS : splitOnTo (c2 :: c3 :: c4 :: rest) with
          | nil => exact absurd hS (splitOnTo_ne_nil _)
          | cons h' t' => exact ⟨h', t', rfl⟩
        rw [hS]
        unfold consHead
        constructor
        · intro x hx
          injection hx with h1 h2
          subst h2
          have := (ih _ htail).1 h' (by rw [hS])
          rw [← h1, ← this]
        · intro x y hxy
          injection hxy with h1 h2
          have := (ih _ htail).2 h' y (by rw [hS, h2])
          rw [← h1, this]
          simp

theorem mem_part_splitOnDash (l : List Char) (c : Char) (hc : c ∈ l)
    (hne : c ≠ '-') : ∃ part ∈ splitOnDash l, c ∈ part := by
  induction l with
  | nil => cases hc
  | cons a rest ih =>
    by_cases ha : a = '-'
    · rw [splitOnDash, if_pos ha]
      rcases List.mem_cons.mp hc with hca | hcr
      · exact absurd (hca.trans ha) hne
      · obtain ⟨part, hp, hcp⟩ := ih hcr
        exact ⟨part, List.mem_cons_of_mem _ hp, hcp⟩
    · rw [splitOnDash, if_neg ha]
      obtain ⟨h', t', hS⟩ : ∃ h' t', splitOnDash rest = h' :: t' := by
        cases hS : splitOnDash rest with
        | nil => exact absurd hS (splitOnDash_ne_nil _)
        | cons h' t' => exact ⟨h', t', rfl⟩
      rw [hS]
      unfold consHead
      rcases List.mem_cons.mp hc with hca | hcr
      · exact ⟨a :: h', List.mem_cons_self _ _, hca ▸ List.mem_cons_self _ _⟩
      · obtain ⟨part, hp, hcp⟩ := ih hcr
        rw [hS] at hp
        rcases List.mem_cons.mp hp with hph | hpt
        · exact ⟨a :: h', List.mem_cons_self _ _,
            List.mem_cons_of_mem _ (hph ▸ hcp)⟩
        · exact ⟨part, List.mem_cons_of_mem _ hpt, hcp⟩

theorem isDigit_ne_space (c : Char) (h : c.isDigit = true) : c ≠ ' ' := by
  intro hc
  subst hc
  exact absurd h (by decide)

theorem parseYMD_no_space (l : List Char) (t : Nat × Nat × Nat)
    (h : parseYMD l = some t) : ∀ c ∈ l, c ≠ ' ' := by
  intro c hc
  unfold parseYMD at h
  cases hS : splitOnDash l with
  | nil => rw [hS] at h; exact absurd h (by simp)
  | cons p1 t1 =>
    cases t1 with
    | nil => rw [hS] at h; exact absurd h (by simp)
    | cons p2 t2 =>
      cases t2 with
      | nil => rw [hS] at h; exact absurd h (by simp)
      | cons p3 t3 =>
        cases t3 with
        | cons p4 t4 => rw [hS] at h; exact absurd h (by simp)
        | nil =>
          rw [hS] at h
          simp only [] at h
          split_ifs at h with h1 h2
          intro hceq
          subst hceq
          obtain ⟨part, hp, hcp⟩ := mem_part_splitOnDash l ' ' hc (by decide)
          rw [hS] at hp
          obtain ⟨hd1, hd2, hd3, -⟩ := h1
          simp only [List.mem_cons, List.not_mem_nil, or_false] at hp
          have : (' ' : Char).isDigit = true := by
            rcases hp with rfl | rfl | rfl
            · exact List.all_eq_true.mp hd1 _ hcp
            · exact List.all_eq_true.mp hd2 _ hcp
            · exact List.all_eq_true.mp hd3 _ hcp
          exact absurd this (by decide)

end SplitLemmas

section MiscHelpers

theorem regen_loop_aux_le (verdicts : Nat → JudgeStatus) :
    ∀ budget attempt, regen_loop_aux verdicts budget attempt ≤ attempt + budget := by
  intro budget
  induction budget with
  | zero => intro attempt; simp [regen_loop_aux]
  | succ n ih =>
    intro attempt
    rw [regen_loop_aux]
    cases verdicts attempt with
    | fail =>
      show regen_loop_aux verdicts n (attempt + 1) ≤ attempt + (n + 1)
      have := ih (attempt + 1)
      omega
    | pass =>
      show attempt ≤ attempt + (n + 1)
      omega
    | insufficientData =>
      show attempt ≤ attempt + (n + 1)
      omega

theorem strictYMDChars_length (l : List Char) (h : strictYMDChars l = true) :
    l.length = 10 := by
  unfold strictYMDChars at h
  split at h
  · rfl
  · exact absurd h (by simp)

theorem build_hierarchical_text_body_cons
    (recur : List String → String → Option String)
    (dict : List (String × IssueRow)) (key : String) (rest : List String)
    (indent : String) :
    build_hierarchical_text_body recur dict (key :: rest) indent =
      match recur (((dictLookup dict key).map (fun r => r.subtasks)).getD [])
          (indent ++ "  ") with
      | none => none
      | some subText =>
        match build_hierarchical_text_body recur dict rest indent with
        | none => none
        | some restText =>
          some (indent ++ key ++ ": " ++
            (((dictLookup dict key).map (fun r => r.summary)).getD "N/A") ++
            "\n" ++ subText ++ restText) := rfl

theorem roundHalfEvenQ_bounds (q : ℚ) (h0 : 0 ≤ q) (h100 : q ≤ 100) :
    0 ≤ roundHalfEvenQ q ∧ roundHalfEvenQ q ≤ 100 := by
  have hf0 : 0 ≤ ⌊q⌋ := Int.le_floor.mpr (by exact_mod_cast h0)
  have hf100 : ⌊q⌋ ≤ 100 := by
    have h1 : (⌊q⌋ : ℚ) ≤ 100 := le_trans (Int.floor_le q) h100
    exact_mod_cast h1
  have hceil : ∀ hr : ¬(q - (⌊q⌋ : ℚ) < 1 / 2), ⌊q⌋ + 1 ≤ 100 := by
    intro hr
    push_neg at hr
    have hfQ : (⌊q⌋ : ℚ) + 1 / 2 ≤ q := by linarith
    have : (⌊q⌋ : ℚ) < 100 := by linarith
    have : ⌊q⌋ < 100 := by exact_mod_cast this
    omega
  simp only [roundHalfEvenQ]
  split_ifs with h1 h2 h3
  · exact ⟨hf0, hf100⟩
  · exact ⟨by omega, hceil h1⟩
  · exact ⟨hf0, hf100⟩
  · exact ⟨by omega, hceil h1⟩

end MiscHelpers

section PeriodHelpers

theorem gnpd_explicit_eq (now : Nat) (p d1 d2 : String)
    (y1 m1 dd1 y2 m2 dd2 : Nat)
    (hp : p = d1 ++ " to " ++ d2)
    (h1 : parseYMD d1.data = some (y1, m1, dd1))
    (h2 : parseYMD d2.data = some (y2, m2, dd2)) :
    get_next_period_dates now p =
      (if 1 ≤ (toOrdinal y2 m2 dd2 : ℤ) +
            ((toOrdinal y2 m2 dd2 : ℤ) - (toOrdinal y1 m1 dd1 : ℤ)) ∧
          (toOrdinal y2 m2 dd2 : ℤ) +
            ((toOrdinal y2 m2 dd2 : ℤ) - (toOrdinal y1 m1 dd1 : ℤ)) ≤
            (maxOrdinal : ℤ) then
        some (fmtOrdinal (toOrdinal y2 m2 dd2) ++ " to " ++
          fmtOrdinal ((toOrdinal y2 m2 dd2 : ℤ) +
            ((toOrdinal y2 m2 dd2 : ℤ) - (toOrdinal y1 m1 dd1 : ℤ))).toNat)
      else none) := by
  have hd1 : ∀ c ∈ d1.data, c ≠ ' ' := parseYMD_no_space _ _ h1
  have hd2 : ∀ c ∈ d2.data, c ≠ ' ' := parseYMD_no_space _ _ h2
  have hdata : p.data = d1.data ++ sepTo ++ d2.data := by
    rw [hp, String.data_append, String.data_append]
    rfl
  have hspace : ' ' ∈ p.data := by
    rw [hdata]
    simp [sepTo]
  have hlw : p ≠ "last_week" := by
    intro he
    rw [he] at hspace
    exact absurd hspace (by decide)
  have hlm : p ≠ "last_month" := by
    intro he
    rw [he] at hspace
    exact absurd hspace (by decide)
  have hsplit : splitOnTo p.data = [d1.data, d2.data] := by
    rw [hdata, splitOnTo_append_sep _ _ hd1, splitOnTo_of_no_space _ hd2]
  unfold get_next_period_dates
  rw [if_neg hlw, if_neg hlm]
  simp only [hsplit, h1, h2]

end PeriodHelpers

/-! The claims. -/

/-- C1. The claim reads: for every issue set whose parent/subtask links
contain a cycle reachable from the root set, build_hierarchical_text
terminates and returns a finite text block, treating a revisited node as a
terminal leaf. The code has no visited-set guard, and on the two-node cycle
cyclic_issues_dict the traversal exhausts every finite recursion budget: the
result is none (a Python RecursionError) at every depth, for every starting
indentation, so the function never terminates normally on this input. This
contradicts the claim; the specification explicitly mandates the guard as a
correctness requirement beyond the original behavior, so the code is at
fault. -/
theorem build_hierarchical_text_cycle_diverges :
    ∀ fuel indent,
      build_hierarchical_text cyclic_issues_dict fuel ["PROJ-1"] indent = none := by
  have key : ∀ fuel,
      (∀ indent, build_hierarchical_text cyclic_issues_dict fuel ["PROJ-1"] indent = none) ∧
      (∀ indent, build_hierarchical_text cyclic_issues_dict fuel ["PROJ-2"] indent = none) := by
    intro fuel
    induction fuel with
    | zero => exact ⟨fun _ => rfl, fun _ => rfl⟩
    | succ n ih =>
      constructor
      · intro indent
        rw [build_hierarchical_text, build_hierarchical_text_body_cons]
        have hsub : ((dictLookup cyclic_issues_dict "PROJ-1").map
            (fun r => r.subtasks)).getD [] = ["PROJ-2"] := rfl
        rw [hsub, ih.2 (indent ++ "  ")]
      · intro indent
        rw [build_hierarchical_text, build_hierarchical_text_body_cons]
        have hsub : ((dictLookup cyclic_issues_dict "PROJ-2").map
            (fun r => r.subtasks)).getD [] = ["PROJ-1"] := rfl
        rw [hsub, ih.1 (indent ++ "  ")]
  intro fuel indent
  exact (key fuel).1 indent

/-- C7. The Overdue metric of the report equals the number of rows that have
a due date set and whose status is not "Done" (the same count whether the
filters are combined or applied in sequence), and it is invariant under every
change of the due-date values that keeps them present: the count never
compares a due date with any current date, it only tests presence and
status. -/
theorem overdue_count_semantics (issues : List IssueRow) (f : String → String) :
    overdue_count issues =
      ((issues.filter (fun i => i.dueDate.isSome)).filter
        (fun i => !(i.status == "Done"))).length ∧
    overdue_count (issues.map (fun i => { i with dueDate := i.dueDate.map f })) =
      overdue_count issues := by
  constructor
  · unfold overdue_count
    rw [List.filter_filter]
    congr 1
    apply List.filter_congr
    intro i _
    rw [Bool.and_comm]
  · unfold overdue_count
    rw [List.filter_map]
    rw [List.length_map]
    congr 1
    apply List.filter_congr
    intro i _
    simp [Function.comp]

/-- C8. Modelled from the spec (section 4.7): with the judge enabled, for
every sequence of judge verdicts the regeneration loop performs at most
max_regeneration_attempts = 2 extra generation passes, however many
consecutive FAIL verdicts occur: the final attempt ordinal never exceeds the
bound, and the all-FAIL verdict sequence reaches it exactly. -/
theorem regeneration_attempts_bounded (verdicts : Nat → JudgeStatus) :
    regen_final_attempt verdicts ≤ max_regeneration_attempts ∧
    regen_final_attempt (fun _ => JudgeStatus.fail) = max_regeneration_attempts := by
  constructor
  · have := regen_loop_aux_le verdicts max_regeneration_attempts 0
    unfold regen_final_attempt
    omega
  · rfl

/-- C9. In generate_report, the identifier dictionary keeps, for each key,
only the extraction of the last raw issue bearing it, while the table keeps
one row per raw issue, so the Total Issues metric counts duplicated
identifiers; on the fixture dupIssues (two raw issues sharing key "X-1") the
dictionary is strictly smaller than the Total Issues count. -/
theorem issues_dict_last_occurrence_and_total (issues : List IssueRow) (k : String) :
    dictLookup (buildIssuesDict issues) k =
      (issues.filter (fun i => i.key == k)).getLast? ∧
    total_issues issues = issues.length ∧
    (buildIssuesDict dupIssues).length < total_issues dupIssues := by
  refine ⟨dictLookup_buildIssuesDict issues k, rfl, by decide⟩

/-- C2. For a non-empty issue list the completion percentage of the metrics
section is the rounding of k/n*100 (k the number of rows with status "Done",
n the row count) and lies between 0 and 100 inclusive; for an empty issue
list the top-of-function guard returns the "no issues" report, so the metrics
(and the division by the issue count) are never computed. -/
theorem completion_percentage_bounds_and_empty_guard
    (issues : List IssueRow) (initiative : String) (h : issues ≠ []) :
    completion_pct issues =
      roundHalfEvenQ (((issues.filter (fun i => i.status == "Done")).length : ℚ)
        / (issues.length : ℚ) * 100) ∧
    0 ≤ completion_pct issues ∧ completion_pct issues ≤ 100 ∧
    generate_report_empty_check issues initiative = none ∧
    generate_report_empty_check [] initiative =
      some ("❌ No issues found for " ++ initiative ++ ".") := by
  have hn : 0 < (issues.length : ℚ) := by
    have : 0 < issues.length := List.length_pos.mpr h
    exact_mod_cast this
  have hk : (issues.filter (fun i => i.status == "Done")).length ≤ issues.length :=
    List.length_filter_le _ _
  have h0 : 0 ≤ ((issues.filter (fun i => i.status == "Done")).length : ℚ)
      / (issues.length : ℚ) * 100 := by
    have := div_nonneg (Nat.cast_nonneg
      (issues.filter (fun i => i.status == "Done")).length) (le_of_lt hn)
    linarith
  have h100 : ((issues.filter (fun i => i.status == "Done")).length : ℚ)
      / (issues.length : ℚ) * 100 ≤ 100 := by
    have hdiv : ((issues.filter (fun i => i.status == "Done")).length : ℚ)
        / (issues.length : ℚ) ≤ 1 := by
      rw [div_le_one hn]
      exact_mod_cast hk
    linarith
  obtain ⟨hb0, hb100⟩ := roundHalfEvenQ_bounds _ h0 h100
  refine ⟨rfl, hb0, hb100, ?_, rfl⟩
  rw [generate_report_empty_check, if_neg]
  simp only [List.isEmpty_iff]
  exact h

/-- Witness for C2 at the three-issue fixture with two Done issues. -/
theorem completion_percentage_bounds_and_empty_guard_witness :
    completion_pct scenarioIssues =
      roundHalfEvenQ (((scenarioIssues.filter (fun i => i.status == "Done")).length : ℚ)
        / (scenarioIssues.length : ℚ) * 100) ∧
    0 ≤ completion_pct scenarioIssues ∧ completion_pct scenarioIssues ≤ 100 ∧
    generate_report_empty_check scenarioIssues "AWS Migration" = none ∧
    generate_report_empty_check [] "AWS Migration" =
      some ("❌ No issues found for " ++ "AWS Migration" ++ ".") :=
  completion_percentage_bounds_and_empty_guard scenarioIssues "AWS Migration"
    (by decide)

/-- C6. For the manager persona with unique issue identifiers, the pre-LLM
digest is exactly "Completed {N} tickets this period. Key accomplishments
include: " followed by the comma-joined summaries of the first five achieved
rows in achieved-subset order, followed by ", and {N-5} other items" when
N exceeds five and by "." otherwise. The right-hand side is built from the
achieved count and the achieved summaries alone, so no per-ticket identifier
occurs in the digest construction. -/
theorem manager_digest_formula (issues : List IssueRow)
    (h : (issues.map (fun i => i.key)).Nodup) :
    managerDigest issues =
      "Completed " ++ toString (issues.filter (fun i => i.status == "Done")).length ++
      " tickets this period. Key accomplishments include: " ++
      String.intercalate ", "
        (((issues.filter (fun i => i.status == "Done")).map
          (fun i => i.summary)).take 5) ++
      (if 5 < (issues.filter (fun i => i.status == "Done")).length then
        ", and " ++
          toString ((issues.filter (fun i => i.status == "Done")).length - 5) ++
          " other items"
      else ".") := by
  have hlen : (achievedKeys issues).length =
      (issues.filter (fun i => i.status == "Done")).length := by
    unfold achievedKeys achievedRows
    rw [List.length_map]
  have hsummaries : ((achievedKeys issues).take 10).map (summaryOfKey issues) =
      ((issues.filter (fun i => i.status == "Done")).map
        (fun i => i.summary)).take 10 := by
    unfold achievedKeys achievedRows
    rw [← List.map_take, List.map_map, ← List.map_take]
    apply List.map_congr_left
    intro r hr
    have hrA : r ∈ issues.filter (fun i => i.status == "Done") :=
      List.mem_of_mem_take hr
    have hri : r ∈ issues := List.mem_of_mem_filter hrA
    show summaryOfKey issues r.key = r.summary
    unfold summaryOfKey
    rw [dictLookup_of_nodup issues h r hri]
  simp only [managerDigest]
  rw [hlen, hsummaries, List.take_take]
  rfl

/-- Witness for C6 at the three-issue fixture (Scenario B of the spec). -/
theorem manager_digest_formula_witness :
    managerDigest scenarioIssues =
      "Completed 2 tickets this period. Key accomplishments include: Migrate database, Set up replication." := by
  rw [manager_digest_formula scenarioIssues (by decide)]
  rfl

/-- C5. get_llm_summary is total for every provider selector, API key, prompt,
optional model and network outcome (in this embedding it returns a display
string and a network-call count, and no branch raises): the no-op provider
"None" returns empty text with no network call; a rate-limited Groq call
returns the message instructing the caller to select another model, after
exactly one call (no automatic retry); a Groq timeout returns the user-facing
timeout text; any other Groq error is wrapped as "❌ Error: {e}"; an error of
the OpenAI, xAI or Gemini providers is wrapped as "AI summary error: {e}";
and no code path ever makes more than one provider call. -/
theorem get_llm_summary_total_behavior (api_key prompt : String)
    (model : Option String) (m e : String) (outcome : LLMOutcome)
    (provider : String) (hm : m ≠ "") :
    get_llm_summary "None" api_key prompt model outcome = ("", 0) ∧
    get_llm_summary "Groq (Free Tier)" api_key prompt (some m)
        (LLMOutcome.status429 e) =
      ("⚠️ Rate limit hit for " ++ m ++
        ". Please select another model and regenerate.", 1) ∧
    get_llm_summary "Groq (Free Tier)" api_key prompt (some m)
        (LLMOutcome.timeoutEx e) =
      ("⚠️ Request timeout. Try a different model.", 1) ∧
    get_llm_summary "Groq (Free Tier)" api_key prompt (some m)
        (LLMOutcome.exception e) = ("❌ Error: " ++ e, 1) ∧
    (provider = "OpenAI" ∨ provider = "xAI" ∨ provider = "Gemini" →
      get_llm_summary provider api_key prompt model (LLMOutcome.exception e) =
        ("AI summary error: " ++ e, 1)) ∧
    (get_llm_summary provider api_key prompt model outcome).2 ≤ 1 := by
  refine ⟨rfl, ?_, ?_, ?_, ?_, ?_⟩
  · simp [get_llm_summary, call_groq_llm, hm]
  · simp [get_llm_summary, call_groq_llm, hm]
  · simp [get_llm_summary, call_groq_llm, hm]
  · rintro (rfl | rfl | rfl) <;> rcases model with _ | m' <;> rfl
  · by_cases hgroq : provider = "Groq (Free Tier)"
    · subst hgroq
      rcases model with _ | m'
      · simp [get_llm_summary]
      · by_cases hm' : m' = ""
        · simp [get_llm_summary, hm']
        · rcases outcome with t | e' | e' | e' <;>
            simp [get_llm_summary, call_groq_llm, hm']
    · by_cases hoth : provider = "OpenAI" ∨ provider = "xAI" ∨ provider = "Gemini"
      · unfold get_llm_summary
        rw [if_neg hgroq, if_pos hoth]
        rcases outcome with t | e' | e' | e' <;> simp
      · unfold get_llm_summary
        rw [if_neg hgroq, if_neg hoth]
        simp

/-- Witness for C5 at a concrete rate-limited Groq call. -/
theorem get_llm_summary_total_behavior_witness :
    get_llm_summary "Groq (Free Tier)" "gsk-key" "summarize"
        (some "llama-3.1-8b-instant") (LLMOutcome.status429 "too many requests") =
      ("⚠️ Rate limit hit for llama-3.1-8b-instant. Please select another model and regenerate.", 1) := by
  have h := (get_llm_summary_total_behavior "gsk-key" "summarize"
    (some "llama-3.1-8b-instant") "llama-3.1-8b-instant" "too many requests"
    (LLMOutcome.status429 "too many requests") "xAI" (by decide)).2.1
  rw [h]
  rfl

/-- C3 (amended). For every explicit period "<start> to <end>" whose two parts
the %Y-%m-%d parser accepts, and whose mirrored next end, end + (end - start),
stays within the representable range 0001-01-01 .. 9999-12-31,
get_next_period_dates returns the window from end to end + (end - start) in
the same "<start> to <end>" format. The claim as frozen omits the range
proviso: at "9999-01-01 to 9999-12-31" (strictly valid YYYY-MM-DD dates) the
Python code raises OverflowError instead of returning a window, see the
counterexample theorem. -/
theorem next_period_explicit_range (now : Nat) (p d1 d2 : String)
    (y1 m1 dd1 y2 m2 dd2 : Nat)
    (hp : p = d1 ++ " to " ++ d2)
    (h1 : parseYMD d1.data = some (y1, m1, dd1))
    (h2 : parseYMD d2.data = some (y2, m2, dd2))
    (hlo : 1 ≤ (toOrdinal y2 m2 dd2 : ℤ) +
        ((toOrdinal y2 m2 dd2 : ℤ) - (toOrdinal y1 m1 dd1 : ℤ)))
    (hhi : (toOrdinal y2 m2 dd2 : ℤ) +
        ((toOrdinal y2 m2 dd2 : ℤ) - (toOrdinal y1 m1 dd1 : ℤ)) ≤
        (maxOrdinal : ℤ)) :
    get_next_period_dates now p =
      some (fmtOrdinal (toOrdinal y2 m2 dd2) ++ " to " ++
        fmtOrdinal ((toOrdinal y2 m2 dd2 : ℤ) +
          ((toOrdinal y2 m2 dd2 : ℤ) - (toOrdinal y1 m1 dd1 : ℤ))).toNat) := by
  rw [gnpd_explicit_eq now p d1 d2 y1 m1 dd1 y2 m2 dd2 hp h1 h2,
    if_pos ⟨hlo, hhi⟩]

/-- Witness for C3: the round trip of the spec,
"2025-10-01 to 2025-10-07" mapping to "2025-10-07 to 2025-10-13". -/
theorem next_period_explicit_range_witness :
    get_next_period_dates 739000 "2025-10-01 to 2025-10-07" =
      some "2025-10-07 to 2025-10-13" := by
  have h := next_period_explicit_range 739000 "2025-10-01 to 2025-10-07"
    "2025-10-01" "2025-10-07" 2025 10 1 2025 10 7 (by decide) (by decide)
    (by decide) (by decide) (by decide)
  rw [h]
  rfl

/-- Counterexample for C3 as frozen: both dates of
"9999-01-01 to 9999-12-31" are valid YYYY-MM-DD dates, yet the call produces
no window at all (Python raises OverflowError on end + (end - start), which
passes 9999-12-31), where the claim asserts a window is returned for every
explicit period with valid dates. -/
theorem next_period_overflow_counterexample :
    strictYMD "9999-01-01" = true ∧ strictYMD "9999-12-31" = true ∧
    get_next_period_dates 739000 "9999-01-01 to 9999-12-31" = none :=
  ⟨by decide, by decide, by decide⟩

/-- C4 (amended). For inputs made of ASCII characters, and assuming the
current date leaves the relative windows representable,
get_next_period_dates fails, producing no next period, exactly when its
input is neither "last_week" nor "last_month" nor an explicit period
"<d1> to <d2>" whose parts the %Y-%m-%d parser accepts (four-digit year of at
least 1, month and day optionally unpadded, calendar-valid) with the computed
next end date within years 1-9999. The ASCII scoping is where the embedded
parser provably matches CPython strptime, whose \d groups additionally accept
non-ASCII Unicode decimal digits (for example a fullwidth-digit year), so the
exactness is stated only there; the acceptance direction needs no such
scoping. The claim as frozen instead demands failure on everything but strict
YYYY-MM-DD dates; the code also accepts unpadded dates such as "2025-1-1",
see the counterexample theorem. -/
theorem next_period_failure_iff (now : Nat) (p : String)
    (hnow : now + 30 ≤ maxOrdinal) (hascii : asciiOnly p) :
    (get_next_period_dates now p).isSome ↔
      (p = "last_week" ∨ p = "last_month" ∨ validExplicitPeriod p) := by
  constructor
  · intro hs
    by_cases hlw : p = "last_week"
    · exact Or.inl hlw
    by_cases hlm : p = "last_month"
    · exact Or.inr (Or.inl hlm)
    refine Or.inr (Or.inr ?_)
    have hs' := hs
    unfold get_next_period_dates at hs'
    rw [if_neg hlw, if_neg hlm] at hs'
    rcases hsp : splitOnTo p.data with _ | ⟨a, _ | ⟨b, _ | ⟨c, t⟩⟩⟩
    · simp [hsp] at hs'
    · simp [hsp] at hs'
    · rcases hpa : parseYMD a with _ | ⟨⟨ya, ma, da⟩⟩
      · simp [hsp, hpa] at hs'
      rcases hpb : parseYMD b with _ | ⟨⟨yb, mb, db⟩⟩
      · simp [hsp, hpa, hpb] at hs'
      have hrec : p.data = a ++ sepTo ++ b :=
        (splitOnTo_inv p.data.length p.data le_rfl).2 a b hsp
      have hpstr : p = String.mk a ++ " to " ++ String.mk b := by
        apply String.ext
        rw [String.data_append, String.data_append]
        exact hrec
      have hpa' : parseYMD (String.mk a).data = some (ya, ma, da) := hpa
      have hpb' : parseYMD (String.mk b).data = some (yb, mb, db) := hpb
      rw [gnpd_explicit_eq now p (String.mk a) (String.mk b)
        ya ma da yb mb db hpstr hpa' hpb'] at hs
      by_cases hcond : 1 ≤ (toOrdinal yb mb db : ℤ) +
          ((toOrdinal yb mb db : ℤ) - (toOrdinal ya ma da : ℤ)) ∧
          (toOrdinal yb mb db : ℤ) +
            ((toOrdinal yb mb db : ℤ) - (toOrdinal ya ma da : ℤ)) ≤
            (maxOrdinal : ℤ)
      · exact ⟨String.mk a, String.mk b, ya, ma, da, yb, mb, db,
          hpstr, hpa', hpb', hcond.1, hcond.2⟩
      · rw [if_neg hcond] at hs
        simp at hs
    · simp [hsp] at hs'
  · rintro (rfl | rfl | ⟨d1, d2, y1, m1, dd1, y2, m2, dd2, hp, h1, h2, hlo, hhi⟩)
    · unfold get_next_period_dates
      rw [if_pos rfl, if_pos (show now + 7 ≤ maxOrdinal by omega)]
      rfl
    · unfold get_next_period_dates
      rw [if_neg (by decide), if_pos rfl, if_pos hnow]
      rfl
    · rw [gnpd_explicit_eq now p d1 d2 y1 m1 dd1 y2 m2 dd2 hp h1 h2,
        if_pos ⟨hlo, hhi⟩]
      rfl

/-- Witness for C4 at the keyword period "last_week" (an ASCII string) and a
present-day ordinal. -/
theorem next_period_failure_iff_witness :
    (get_next_period_dates 739000 "last_week").isSome ↔
      ("last_week" = "last_week" ∨ "last_week" = "last_month" ∨
        validExplicitPeriod "last_week") :=
  next_period_failure_iff 739000 "last_week" (by decide)
    (by unfold asciiOnly; decide)

/-- Counterexample for C4 as frozen: "2025-1-1 to 2025-1-7" is not of the
form "<date> to <date>" with valid YYYY-MM-DD dates (no decomposition of it
has two strictly shaped parts), yet the call succeeds instead of failing: the
Python %Y-%m-%d parser accepts months and days without a leading zero. -/
theorem next_period_unpadded_counterexample :
    (get_next_period_dates 739000 "2025-1-1 to 2025-1-7").isSome = true ∧
    ¬ ∃ d1 d2 : String, "2025-1-1 to 2025-1-7" = d1 ++ " to " ++ d2 ∧
        strictYMD d1 = true ∧ strictYMD d2 = true := by
  constructor
  · decide
  · rintro ⟨d1, d2, hp, h1, h2⟩
    have hl1 : d1.data.length = 10 := strictYMDChars_length d1.data h1
    have hl2 : d2.data.length = 10 := strictYMDChars_length d2.data h2
    have hlen := congrArg String.length hp
    rw [String.length_append, String.length_append] at hlen
    have h20 : ("2025-1-1 to 2025-1-7" : String).length = 20 := by decide
    have hd1 : d1.length = 10 := hl1
    have hd2 : d2.length = 10 := hl2
    have h4 : (" to " : String).length = 4 := by decide
    omega

/-- C10. Calling get_llm_summary with the Groq provider and a missing Groq
model (None or the empty string) returns exactly the string
"❌ No Groq model selected" and performs no network call, for every API key,
prompt and network outcome. -/
theorem groq_missing_model_message (api_key prompt : String) (outcome : LLMOutcome) :
    get_llm_summary "Groq (Free Tier)" api_key prompt none outcome =
      ("❌ No Groq model selected", 0) ∧
    get_llm_summary "Groq (Free Tier)" api_key prompt (some "") outcome =
      ("❌ No Groq model selected", 0) :=
  ⟨rfl, rfl⟩

end StatusGen
